import Mathlib

/-!
Verification development for the reactive state-synchronization layer of the
AngulareCommerceDsMicroServices client (RecordsComponent / RecordsService /
OrdersComponent).  Server payloads are modelled as a small JS-value type,
object identity of records and arrays is modelled with an explicit heap of
addresses, and the observable-based operations are split into their
synchronous part and their success/error callbacks.
-/

/-- A decoded JS value as delivered by the HTTP client.  `jundefined` is the
JavaScript undefined value (e.g. a missing property). -/
inductive JVal where
  | jnull
  | jundefined
  | jbool (b : Bool)
  | jnum (n : Int)
  | jstr (s : String)
  | jarr (xs : List JVal)
  | jobj (fields : List (String × JVal))

/-- JavaScript truthiness of a value. -/
def truthy : JVal → Bool
  | .jnull => false
  | .jundefined => false
  | .jbool b => b
  | .jnum n => n != 0
  | .jstr s => !s.isEmpty
  | .jarr _ => true
  | .jobj _ => true

/-- First binding of a key in an object field list (JS objects have unique
keys; payload objects are assumed well formed in that sense). -/
def getField (fs : List (String × JVal)) (k : String) : Option JVal :=
  (fs.find? (fun p => p.1 == k)).map (fun p => p.2)

/-- Property read `v[k]` on a value that is not null/undefined: a missing
property reads as undefined, property reads on primitives and arrays also
give undefined for the keys used here. -/
def getPropD (v : JVal) (k : String) : JVal :=
  match v with
  | .jobj fs => (getField fs k).getD .jundefined
  | _ => .jundefined

/-- Property read `v[k]` in full: reading a property of null or undefined
throws a TypeError, modelled as `Except.error`. -/
def getPropE (v : JVal) (k : String) : Except Unit JVal :=
  match v with
  | .jnull => .error ()
  | .jundefined => .error ()
  | _ => .ok (getPropD v k)

/-! ## Envelope normalization, one definition per call site

The repository probes response envelopes ad hoc at three call sites; each is
translated separately, following its own sequence of branches. -/

/-- RecordsComponent.getRecords envelope handling (src/unnamed/part_000,
lines 148-155): bare array, else `$values` array, else `data` array, else
empty.  Every property probe is guarded by a truthiness check of the payload,
so this call site never throws. -/
def componentRecordsNormalize (data : JVal) : List JVal :=
  match data with
  | .jarr xs => xs
  | _ =>
    if truthy data then
      match getPropD data "$values" with
      | .jarr xs => xs
      | _ =>
        match getPropD data "data" with
        | .jarr xs => xs
        | _ => []
    else []

/-- RecordsService.getRecords envelope handling (src/unnamed/part_000, lines
569-583): bare array; else, for a truthy object, `$values` array, else the
object property values whenever the object has at least one key; else empty.
Note there is no `data` strategy at this call site. -/
def serviceRecordsNormalize (response : JVal) : List JVal :=
  match response with
  | .jarr xs => xs
  | .jobj fs =>
    match getField fs "$values" with
    | some (.jarr xs) => xs
    | _ => if fs.length > 0 then fs.map (fun p => p.2) else []
  | _ => []

/-- RecordsComponent.getGroups envelope handling (src/unnamed/part_000, lines
251-264): bare array, else `$values` array, else `data` array, else a console
warning and the empty list.  The `$values` and `data` probes are NOT guarded
by a null check of the response, so a null payload throws a TypeError,
modelled as `Except.error`. -/
def groupsNormalize (response : JVal) : Except Unit (List JVal) :=
  match response with
  | .jarr xs => .ok xs
  | _ =>
    match getPropE response "$values" with
    | .error e => .error e
    | .ok v =>
      match v with
      | .jarr xs => .ok xs
      | _ =>
        match getPropE response "data" with
        | .error e => .error e
        | .ok d =>
          match d with
          | .jarr xs => .ok xs
          | _ => .ok []

/-! ## RecordsService.getRecords pipeline -/

/-- A transport-level HTTP error as seen by a subscriber: status code, the
error message, and the decoded response body (`err.error`). -/
structure HErr where
  status : Int
  message : String
  errorBody : JVal

/-- The own enumerable properties produced by a JS object spread `{...v}`:
an object contributes its fields, an array or a string contributes its
indexed elements, primitives contribute nothing. -/
def jsSpreadFields : JVal → List (String × JVal)
  | .jobj fs => fs
  | .jarr xs => xs.enum.map (fun p => (toString p.1, p.2))
  | .jstr s => s.toList.enum.map (fun p => (toString p.1, .jstr (String.mk [p.2])))
  | _ => []

/-- Write a field: an existing key keeps its position (JS object literal
semantics of `{...r, k: v}`), a new key is appended. -/
def setField (fs : List (String × JVal)) (k : String) (v : JVal) : List (String × JVal) :=
  if (fs.find? (fun p => p.1 == k)).isSome then
    fs.map (fun p => if p.1 == k then (k, v) else p)
  else fs ++ [(k, v)]

/-- The map step of RecordsService.getRecords (lines 586-595):
`{...record, stock}` where stock is the numeric stock of the record, or 0
when the stock property is not a number. -/
def coalesceStock (record : JVal) : JVal :=
  let stock : JVal :=
    match getPropD record "stock" with
    | .jnum n => .jnum n
    | _ => .jnum 0
  .jobj (setField (jsSpreadFields record) "stock" stock)

/-- What the RecordsService.getRecords observable delivers to a subscriber
(lines 564-616): the normalized, stock-coalesced record list on success, and
— because `catchError` logs the transport error and returns `of([])` — a
successful empty emission on any transport error.  The subscriber never sees
an error notification. -/
def serviceGetRecords (fetch : Except HErr JVal) : List JVal :=
  match fetch with
  | .error _ => []
  | .ok response => (serviceRecordsNormalize response).map coalesceStock

/-! ## Stock update events -/

/-- A stock update event as distributed by the stock hub. -/
structure StockUpdate where
  recordId : Int
  newStock : Int
deriving DecidableEq

/-- Modelled from the spec: the stock broadcast hub (`StockService`, whose
source is not under src/) only notifies — per section 4.2 of the spec,
`publish(event)` delivers the event to every subscriber unchanged and the hub
never mutates any state of a view.  So `notifyStockUpdate(recordId,
newStock)` publishes exactly the event `(recordId, newStock)`. -/
def notifyStockUpdate (recordId newStock : Int) : StockUpdate :=
  ⟨recordId, newStock⟩

/-- The event published by RecordsService.decrementStock on success (lines
956-974): `notifyStockUpdate(idRecord, amount)` with `amount = -1`, the
requested delta — not the post-update stock level. -/
def decrementStockPublished (idRecord : Int) : StockUpdate :=
  notifyStockUpdate idRecord (-1)

/-- The event published by RecordsService.incrementStock on success (lines
976-994): `notifyStockUpdate(idRecord, amount)` with `amount = 1`. -/
def incrementStockPublished (idRecord : Int) : StockUpdate :=
  notifyStockUpdate idRecord 1

/-- Numeric reading of a payload field (fields are modelled at their declared
numeric type; `x || 0` coalesces an absent field to 0 and is the identity on
numbers since `0 || 0 = 0`). -/
def jsNumOrZero (v : JVal) : Int :=
  match v with
  | .jnum n => n
  | _ => 0

/-- The stock events published by the tap step of RecordsService.getRecords
(lines 597-605): one `notifyStockUpdate(record.idRecord, record.stock || 0)`
per emitted record — these carry the absolute stock level of the record. -/
def serviceGetRecordsPublished (fetch : Except HErr JVal) : List StockUpdate :=
  (serviceGetRecords fetch).map
    (fun r => notifyStockUpdate (jsNumOrZero (getPropD r "idRecord"))
      (jsNumOrZero (getPropD r "stock")))

/-! ## RecordsComponent error classification and load pipeline -/

/-- The pairs visited by a JS `for (const key in v)` loop. -/
def forInPairs : JVal → List (String × JVal)
  | .jobj fs => fs
  | .jarr xs => xs.enum.map (fun p => (toString p.1, p.2))
  | .jstr s => s.toList.enum.map (fun p => (toString p.1, .jstr (String.mk [p.2])))
  | _ => []

/-- Elements contributed by a JS array spread `push(...v)` for the iterable
values that occur in validation-error payloads (arrays and strings; spreading
another truthy non-iterable would itself throw and is outside the payload
shapes modelled here). -/
def spreadElems : JVal → List JVal
  | .jarr xs => xs
  | .jstr s => s.toList.map (fun c => .jstr (String.mk [c]))
  | _ => []

/-- String coercion used by `Array.prototype.join` on the collected
validation messages. -/
def jvalToString : JVal → String
  | .jstr s => s
  | .jnum n => toString n
  | .jbool b => if b then "true" else "false"
  | .jnull => "null"
  | .jundefined => "undefined"
  | .jarr _ => ""
  | .jobj _ => "[object Object]"

/-- `xs.join(sep)` on the collected messages. -/
def joinWith (sep : String) : List String → String
  | [] => ""
  | [x] => x
  | x :: xs => x ++ sep ++ joinWith sep xs

/-- RecordsComponent.controlError (src/unnamed/part_000, lines 427-484),
restricted to the message it assigns; the method sets only `errorMessage`,
never `visibleError`. -/
def controlErrorMessage (err : HErr) : String :=
  if err.status == 400 then
    match err.errorBody with
    | .jobj fs =>
      let errors := (getField fs "errors").getD .jundefined
      if truthy errors then
        joinWith "\n"
          ((forInPairs errors).foldr
            (fun p acc => if truthy p.2 then (spreadElems p.2).map jvalToString ++ acc else acc) [])
      else
        match getField fs "title" with
        | some (.jstr t) =>
          if !t.isEmpty then t
          else "Invalid data. Please check your input and try again."
        | _ => "Invalid data. Please check your input and try again."
    | _ => "Invalid data. Please check your input and try again."
  else if err.status == 401 then "Unauthorized. Please log in again."
  else if err.status == 403 then "You do not have permission to perform this action."
  else if err.status == 404 then "The requested resource was not found."
  else if err.status >= 500 then "A server error occurred. Please try again later."
  else
    match err.errorBody with
    | .jobj fs =>
      match getField fs "message" with
      | some m =>
        if truthy m then jvalToString m
        else if !err.message.isEmpty then err.message
        else "An unexpected error occurred. Please try again."
      | none =>
        if !err.message.isEmpty then err.message
        else "An unexpected error occurred. Please try again."
    | .jstr s => s
    | _ =>
      if !err.message.isEmpty then err.message
      else "An unexpected error occurred. Please try again."

/-- The view state of RecordsComponent that the load/groups pipelines touch:
the error flag and message, the record lists and the group list.  (Record
identity is irrelevant to the load pipeline claims, so this state holds the
values themselves.) -/
structure CompState where
  visibleError : Bool
  errorMessage : String
  records : List JVal
  filteredRecords : List JVal
  groups : List JVal

/-- JS `a || b`. -/
def jsOr (v d : JVal) : JVal :=
  if truthy v then v else d

/-- JS strict equality `===` on the primitive values compared here (group and
record identifiers); comparing values of different primitive types is false,
and object/array operands (where `===` is reference equality) do not occur in
the id positions this is used for. -/
def jsStrictEq : JVal → JVal → Bool
  | .jnull, .jnull => true
  | .jundefined, .jundefined => true
  | .jbool a, .jbool b => a == b
  | .jnum a, .jnum b => a == b
  | .jstr a, .jstr b => a == b
  | _, _ => false

/-- The per-record processing of RecordsComponent.getRecords (lines 175-202):
build the IRecord literal with `|| default` coalescing, then left join the
group name on `groupId` (strict equality on the numeric ids; an absent group
leaves the empty name). -/
def processRecord (groups : List JVal) (record : JVal) : JVal :=
  let gid := jsOr (getPropD record "groupId") .jnull
  let joined : JVal :=
    if !jsStrictEq gid .jnull then
      match groups.find? (fun g => jsStrictEq (getPropD g "idGroup") gid) with
      | some g => jsOr (getPropD g "nameGroup") (.jstr "")
      | none => .jstr ""
    else .jstr ""
  .jobj
    [ ("idRecord", jsOr (getPropD record "idRecord") (.jnum 0)),
      ("titleRecord", jsOr (getPropD record "titleRecord") (.jstr "")),
      ("yearOfPublication", jsOr (getPropD record "yearOfPublication") .jnull),
      ("imageRecord", jsOr (getPropD record "imageRecord") .jnull),
      ("photo", jsOr (getPropD record "photo") .jnull),
      ("photoName", jsOr (getPropD record "photoName") .jnull),
      ("price", jsOr (getPropD record "price") (.jnum 0)),
      ("stock", jsOr (getPropD record "stock") (.jnum 0)),
      ("discontinued", jsOr (getPropD record "discontinued") (.jbool false)),
      ("groupId", gid),
      ("groupName", joined),
      ("nameGroup", joined) ]

/-- RecordsComponent.getRecords subscriber (lines 144-223).  Parameters are
the outcome the records observable delivers and the outcome of the inner
`groupsService.getGroups()` subscription (GroupsService is not under src/;
only its delivered outcome matters here).  On a records error: visibleError
is set and controlError assigns the message.  On a groups error: the raw,
unjoined records are installed, controlError assigns the message, but
`visibleError` is NOT touched by this branch.  On success both lists receive
the processed, group-joined records.  (The stock-initialization side effects
into StockService are not part of the view state.) -/
def componentGetRecords (recordsOutcome : Except HErr JVal)
    (groupsOutcome : Except HErr JVal) (s : CompState) : CompState :=
  match recordsOutcome with
  | .error err =>
    { s with visibleError := true, errorMessage := controlErrorMessage err }
  | .ok data =>
    let recordsArray := componentRecordsNormalize data
    match groupsOutcome with
    | .ok groupsResponse =>
      -- lines 167-172: this inner probe tries only the bare and $values shapes
      let groups : List JVal :=
        match groupsResponse with
        | .jarr xs => xs
        | _ =>
          if truthy groupsResponse then
            match getPropD groupsResponse "$values" with
            | .jarr xs => xs
            | _ => []
          else []
      let processed := recordsArray.map (processRecord groups)
      { s with records := processed, filteredRecords := processed }
    | .error err =>
      { s with records := recordsArray, filteredRecords := recordsArray,
               errorMessage := controlErrorMessage err }

/-- RecordsComponent.getGroups subscriber (lines 247-275): on success it
normalizes (which throws on a null payload, hence the `Except`) and installs
the groups; on a transport error it sets `visibleError` and the message. -/
def componentGetGroups (outcome : Except HErr JVal) (s : CompState) :
    Except Unit CompState :=
  match outcome with
  | .error err =>
    .ok { s with visibleError := true, errorMessage := controlErrorMessage err }
  | .ok response =>
    match groupsNormalize response with
    | .error e => .error e
    | .ok groupsArray => .ok { s with groups := groupsArray }

/-- The composite record-load pipeline: the component subscribes to
RecordsService.getRecords, whose catchError turns every transport error into
a successful empty emission, so the component always takes its next branch
with the service output (a bare array). -/
def recordsLoad (recordsFetch groupsFetch : Except HErr JVal) (s : CompState) :
    CompState :=
  componentGetRecords (.ok (.jarr (serviceGetRecords recordsFetch))) groupsFetch s

example : componentRecordsNormalize (.jobj [("data", .jarr [.jnum 1])]) = [.jnum 1] := rfl
example : serviceRecordsNormalize (.jobj [("data", .jarr [.jnum 1])]) = [.jarr [.jnum 1]] := rfl
example : groupsNormalize .jnull = .error () := rfl
example : serviceGetRecords (.error ⟨0, "net", .jnull⟩) = [] := rfl
example :
    (recordsLoad (.error ⟨0, "net", .jnull⟩) (.ok (.jarr []))
      ⟨false, "", [], [], []⟩).visibleError = false := rfl

/-! ## Record object identity: heap model

The stock and cart claims are about reference identity (in-place mutation vs
fresh copies), so records are modelled as heap objects: each record is an
address into a heap of field tuples, the two view lists hold addresses, and
each list also carries its own array reference token.  A fresh allocation
(object copy or fresh array) takes the next free token. -/

/-- The fields of an IRecord touched by the stock and cart paths.  Optional
numeric and boolean fields are modelled at their coalesced values, matching
how every access site reads them (`x || 0`, `!!x`, `Math.max(0, ...)`). -/
structure RecordFields where
  idRecord : Int
  titleRecord : String
  price : Int
  stock : Int
  inCart : Bool
  amount : Int
  groupName : String
deriving DecidableEq

/-- A record heap: addresses paired with the current field values. -/
abbrev RecHeap := List (Nat × RecordFields)

/-- Dereference an address. -/
def heapGet (h : RecHeap) (a : Nat) : Option RecordFields :=
  (h.find? (fun p => p.1 == a)).map (fun p => p.2)

/-- Mutate the object at an address in place (the address keeps denoting the
same object; only its fields change). -/
def heapSet (h : RecHeap) (a : Nat) (f : RecordFields) : RecHeap :=
  h.map (fun p => if p.1 == a then (a, f) else p)

/-- The RecordsComponent state the stock/cart paths touch: the heap, the
`records` and `filteredRecords` arrays (their element addresses plus an array
reference token each), and the allocation counters. -/
structure ViewState where
  heap : RecHeap
  nextAddr : Nat
  recordsRef : Nat
  recordsList : List Nat
  filteredRef : Nat
  filteredList : List Nat
  nextArrRef : Nat
deriving DecidableEq

/-- Every allocated address is below the allocation counter. -/
def WFHeap (h : RecHeap) (n : Nat) : Prop :=
  ∀ p ∈ h, p.1 < n

instance decWFHeap (h : RecHeap) (n : Nat) : Decidable (WFHeap h n) :=
  inferInstanceAs (Decidable (∀ p ∈ h, p.1 < n))

/-- The shallow copy `{...record, stock: newStock}` built by the
stockUpdate$ subscription for a matching record. -/
def stockCopy (ns : Int) (f : RecordFields) : RecordFields :=
  { f with stock := ns }

/-- Prepend an element to the list component of a `stockMapList` result. -/
def consOut (x : RecHeap × Nat × List Nat) (a : Nat) : RecHeap × Nat × List Nat :=
  (x.1, x.2.1, a :: x.2.2)

/-- The map body of the stockUpdate$ subscription applied to one list of
addresses: a record whose idRecord matches is replaced by a freshly allocated
shallow copy carrying the new stock, any other record keeps its address.
Returns the extended heap, the new allocation counter and the new element
list. -/
def stockMapList (rid ns : Int) : List Nat → RecHeap → Nat →
    RecHeap × Nat × List Nat
  | [], h, n => (h, n, [])
  | a :: rest, h, n =>
    match heapGet h a with
    | some f =>
      if f.idRecord = rid then
        consOut (stockMapList rid ns rest ((n, stockCopy ns f) :: h) (n + 1)) n
      else
        consOut (stockMapList rid ns rest h n) a
    | none =>
      consOut (stockMapList rid ns rest h n) a

/-- The stockUpdate$ subscription handler of RecordsComponent.ngOnInit (lines
105-121): both `this.records` and `this.filteredRecords` are rebuilt with
`.map`, which installs a new array reference for each list. -/
def applyStockEvent (u : StockUpdate) (s : ViewState) : ViewState :=
  let r1 := stockMapList u.recordId u.newStock s.recordsList s.heap s.nextAddr
  let r2 := stockMapList u.recordId u.newStock s.filteredList r1.1 r1.2.1
  { s with
    heap := r2.1
    nextAddr := r2.2.1
    recordsList := r1.2.2
    recordsRef := s.nextArrRef
    filteredList := r2.2.2
    filteredRef := s.nextArrRef + 1
    nextArrRef := s.nextArrRef + 2 }

/-- One cart line of the snapshot distributed by cart$ (`item.amount || 0`
read as the coalesced amount). -/
structure CartItem where
  idRecord : Int
  amount : Int
deriving DecidableEq

/-- The new field values the cart$ handler assigns to one record:
`inCart = !!cartItem; amount = cartItem ? cartItem.amount || 0 : 0`. -/
def cartNewFields (items : List CartItem) (f : RecordFields) : RecordFields :=
  match items.find? (fun it => it.idRecord == f.idRecord) with
  | some it => { f with inCart := true, amount := it.amount }
  | none => { f with inCart := false, amount := 0 }

/-- One step of the `this.records.forEach` loop of the cart$ handler: the
record object is mutated in place. -/
def cartStep (items : List CartItem) (h : RecHeap) (a : Nat) : RecHeap :=
  match heapGet h a with
  | none => h
  | some f => heapSet h a (cartNewFields items f)

/-- The cart$ subscription handler of RecordsComponent.ngOnInit (lines
123-135): every record of the base list is mutated in place, `this.records`
is NOT reassigned (same array reference, same element addresses), and only
`this.filteredRecords` receives a fresh array `[...this.records]`. -/
def applyCartSnapshot (items : List CartItem) (s : ViewState) : ViewState :=
  { s with
    heap := s.recordsList.foldl (cartStep items) s.heap
    filteredList := s.recordsList
    filteredRef := s.nextArrRef
    nextArrRef := s.nextArrRef + 1 }

/-! ## Cart operations (RecordsComponent.addToCart / removeFromCart)

Each operation is split into its synchronous part — which checks the guards
and, at most, issues the remote call — and the two subscribe callbacks, which
run only once the remote call has resolved. -/

/-- Truthiness of the user email (`userService.email`; UserService is not
under src/, the current email value is a parameter). -/
def jsTruthyOptStr : Option String → Bool
  | none => false
  | some s => !s.isEmpty

/-- `this.filteredRecords = [...this.records]`: a fresh array holding the
addresses of the base list. -/
def republishFiltered (s : ViewState) : ViewState :=
  { s with
    filteredList := s.recordsList
    filteredRef := s.nextArrRef
    nextArrRef := s.nextArrRef + 1 }

/-- Mutate the fields of the record object at address `r` in place. -/
def setRecordFields (r : Nat) (g : RecordFields → RecordFields) (s : ViewState) :
    ViewState :=
  match heapGet s.heap r with
  | none => s
  | some f => { s with heap := heapSet s.heap r (g f) }

/-- RecordsComponent.addToCart, synchronous part (lines 486-490): with no
truthy user email it returns before issuing the remote call; otherwise it
issues the call.  No local state is touched before the call resolves — both
mutation sites live inside the subscribe callbacks.  Returns the state after
the synchronous part and whether the remote call was issued. -/
def addToCartIssue (userEmail : Option String) (_r : Nat) (s : ViewState) :
    ViewState × Bool :=
  if jsTruthyOptStr userEmail then (s, true) else (s, false)

/-- addToCart success callback (lines 491-496): `record.inCart = true;
record.amount = (record.amount || 0) + 1` and republish the filtered list. -/
def addToCartOnSuccess (r : Nat) (s : ViewState) : ViewState :=
  republishFiltered
    (setRecordFields r (fun f => { f with inCart := true, amount := f.amount + 1 }) s)

/-- addToCart error callback (lines 497-503): `record.inCart = false;
record.amount = 0` and republish the filtered list. -/
def addToCartOnError (r : Nat) (s : ViewState) : ViewState :=
  republishFiltered
    (setRecordFields r (fun f => { f with inCart := false, amount := 0 }) s)

/-- RecordsComponent.removeFromCart, synchronous part (lines 507-511): a
no-op (no remote call) when the email is falsy or the record is not marked
in-cart; otherwise it issues the remote call, touching no local state. -/
def removeFromCartIssue (userEmail : Option String) (r : Nat) (s : ViewState) :
    ViewState × Bool :=
  let inCart :=
    match heapGet s.heap r with
    | some f => f.inCart
    | none => false
  if jsTruthyOptStr userEmail && inCart then (s, true) else (s, false)

/-- removeFromCart success callback (lines 512-517):
`record.amount = Math.max(0, (record.amount || 0) - 1);
record.inCart = record.amount > 0` and republish the filtered list. -/
def removeFromCartOnSuccess (r : Nat) (s : ViewState) : ViewState :=
  republishFiltered
    (setRecordFields r
      (fun f =>
        let amount := max 0 (f.amount - 1)
        { f with amount := amount, inCart := decide (0 < amount) }) s)

/-- removeFromCart error callback (lines 518-524):
`record.amount = (record.amount || 0) + 1; record.inCart = true` and
republish the filtered list. -/
def removeFromCartOnError (r : Nat) (s : ViewState) : ViewState :=
  republishFiltered
    (setRecordFields r (fun f => { f with amount := f.amount + 1, inCart := true }) s)

/-! ## OrdersComponent (identity-driven reload) -/

/-- An order as displayed by OrdersComponent. -/
structure IOrder where
  idOrder : Int
  orderDate : String
  paymentMethod : String
  total : Int
  userEmail : String
deriving DecidableEq

/-- The OrdersComponent state its load path touches. -/
structure OrdersState where
  orders : List IOrder
  filteredOrders : List IOrder
  loading : Bool
deriving DecidableEq

/-- OrdersComponent.loadOrders (orders.component.ts lines 74-119, identical
in effect in src/unnamed/part_001 lines 72-87): on success installs the
fetched list into `orders` and a copy into `filteredOrders`; on error empties
both.  The outcome of `orderService.getOrdersByUserEmail` is a parameter
(OrderService is not under src/). -/
def loadOrders (outcome : Except HErr (List IOrder)) (_email : String)
    (s : OrdersState) : OrdersState :=
  match outcome with
  | .ok orders =>
    { s with orders := orders, filteredOrders := orders, loading := false }
  | .error _ =>
    { s with orders := [], filteredOrders := [], loading := false }

/-- The emailUser$ subscription handler of the OrdersComponent constructor
(orders.component.ts lines 60-67 and src/unnamed/part_001 lines 58-66):
`if (email) this.loadOrders(email)` — a falsy email triggers nothing at all.
Returns the state and whether a fetch was issued. -/
def ordersOnEmailChange (email : Option String)
    (outcome : Except HErr (List IOrder)) (s : OrdersState) :
    OrdersState × Bool :=
  match email with
  | some e =>
    if !e.isEmpty then (loadOrders outcome e s, true) else (s, false)
  | none => (s, false)

/-! ## Draft save path (RecordsComponent.save, RecordsService.addRecord /
updateRecord) -/

/-- The draft record fields the save path inspects.  `groupId` is
`number | null | undefined` in the source; both nullish values are modelled
as `none`. -/
structure DraftRecord where
  idRecord : Int
  titleRecord : String
  price : Int
  stock : Int
  groupId : Option Int
  discontinued : Bool
deriving DecidableEq

/-- Truthiness of the groupId (`!record.groupId` is true for null, undefined
and 0). -/
def jsTruthyOptInt : Option Int → Bool
  | none => false
  | some n => n != 0

/-- RecordsService.addRecord (lines 666-762): when `!record.groupId` it
throws `new Error("Group is required")` synchronously, before the FormData is
built and before any HTTP request; `.ok` means the multipart POST was
issued. -/
def addRecord (record : DraftRecord) : Except String Unit :=
  if !jsTruthyOptInt record.groupId then .error "Group is required" else .ok ()

/-- RecordsService.updateRecord (lines 764-832): same synchronous guard
before the multipart PUT. -/
def updateRecord (record : DraftRecord) : Except String Unit :=
  if !jsTruthyOptInt record.groupId then .error "Group is required" else .ok ()

/-- How a call to RecordsComponent.save ends, as far as its synchronous part
is concerned. -/
inductive SaveOutcome where
  | localValidationError
  | syncThrow (msg : String)
  | networkIssued
deriving DecidableEq

/-- RecordsComponent.save (lines 300-349).  The local pre-submission
validation checks only the truthiness of title, price and stock; when it
fails, `visibleError` is set and no network call happens.  Otherwise the
draft is copied (`groupId` undefined is normalized to null — covered by the
Option model) and addRecord or updateRecord is called according to the
idRecord zero sentinel.  Their synchronous throw happens during that call,
before `.subscribe` attaches the error callback, so it escapes the
subscribe-based error path and `visibleError` keeps its previous value.
Returns the outcome and the value of `visibleError` after the synchronous
part. -/
def save (record : DraftRecord) (visibleError : Bool) : SaveOutcome × Bool :=
  if record.titleRecord.isEmpty || record.price == 0 || record.stock == 0 then
    (.localValidationError, true)
  else
    let result := if record.idRecord == 0 then addRecord record else updateRecord record
    match result with
    | .error m => (.syncThrow m, visibleError)
    | .ok _ => (.networkIssued, visibleError)

/-! ## Heap lemmas -/

theorem heapGet_cons (q : Nat × RecordFields) (t : RecHeap) (a : Nat) :
    heapGet (q :: t) a = if q.1 = a then some q.2 else heapGet t a := by
  by_cases hqa : q.1 = a
  · simp [heapGet, List.find?, hqa]
  · have hb : (q.1 == a) = false := by simpa using hqa
    simp [heapGet, List.find?, hqa, hb]

theorem heapGet_set_self (h : RecHeap) (a : Nat) (f g : RecordFields)
    (hg : heapGet h a = some g) : heapGet (heapSet h a f) a = some f := by
  induction h with
  | nil => simp [heapGet] at hg
  | cons q t ih =>
    rw [heapGet_cons] at hg
    by_cases hqa : q.1 = a
    · simp only [heapSet, List.map_cons]
      rw [show (if q.1 == a then (a, f) else q) = (a, f) by simp [hqa]]
      rw [heapGet_cons]
      simp
    · simp only [heapSet, List.map_cons]
      rw [show (if q.1 == a then (a, f) else q) = q by simp [hqa]]
      rw [heapGet_cons]
      simp only [hqa, if_false]
      simp only [heapSet] at ih
      exact ih (by simpa [hqa] using hg)

theorem heapGet_set_other (h : RecHeap) (a b : Nat) (f : RecordFields)
    (hne : b ≠ a) : heapGet (heapSet h a f) b = heapGet h b := by
  induction h with
  | nil => rfl
  | cons q t ih =>
    by_cases hqa : q.1 = a
    · simp only [heapSet, List.map_cons]
      rw [show (if q.1 == a then (a, f) else q) = (a, f) by simp [hqa]]
      rw [heapGet_cons, heapGet_cons]
      rw [if_neg (show ¬(a = b) from Ne.symm hne)]
      rw [if_neg (show ¬(q.1 = b) from by rw [hqa]; exact Ne.symm hne)]
      simp only [heapSet] at ih
      exact ih
    · simp only [heapSet, List.map_cons]
      rw [show (if q.1 == a then (a, f) else q) = q by simp [hqa]]
      rw [heapGet_cons, heapGet_cons]
      simp only [heapSet] at ih
      rw [ih]

theorem heapGet_some_lt (h : RecHeap) (n a : Nat) (f : RecordFields)
    (hwf : WFHeap h n) (hf : heapGet h a = some f) : a < n := by
  unfold heapGet at hf
  cases hfind : h.find? (fun p => p.1 == a) with
  | none => rw [hfind] at hf; simp at hf
  | some q =>
    have hmem : q ∈ h := List.mem_of_find?_eq_some hfind
    have hqa := List.find?_some hfind
    simp only [beq_iff_eq] at hqa
    exact hqa ▸ hwf q hmem

theorem setRecordFields_heap_self (r : Nat) (g : RecordFields → RecordFields)
    (s : ViewState) (f : RecordFields) (hf : heapGet s.heap r = some f) :
    heapGet (setRecordFields r g s).heap r = some (g f) := by
  simp only [setRecordFields, hf]
  exact heapGet_set_self s.heap r (g f) f hf

theorem setRecordFields_heap_other (r b : Nat) (g : RecordFields → RecordFields)
    (s : ViewState) (hne : b ≠ r) :
    heapGet (setRecordFields r g s).heap b = heapGet s.heap b := by
  unfold setRecordFields
  cases hr : heapGet s.heap r with
  | none => rfl
  | some f => simpa using heapGet_set_other s.heap r b (g f) hne

theorem setRecordFields_arrays (r : Nat) (g : RecordFields → RecordFields)
    (s : ViewState) :
    (setRecordFields r g s).recordsRef = s.recordsRef ∧
    (setRecordFields r g s).recordsList = s.recordsList ∧
    (setRecordFields r g s).filteredRef = s.filteredRef ∧
    (setRecordFields r g s).filteredList = s.filteredList ∧
    (setRecordFields r g s).nextArrRef = s.nextArrRef := by
  unfold setRecordFields
  cases heapGet s.heap r <;> simp

theorem republishFiltered_props (t : ViewState) :
    (republishFiltered t).heap = t.heap ∧
    (republishFiltered t).recordsRef = t.recordsRef ∧
    (republishFiltered t).recordsList = t.recordsList ∧
    (republishFiltered t).filteredList = t.recordsList ∧
    (republishFiltered t).filteredRef = t.nextArrRef := by
  simp [republishFiltered]

/-! ## Demonstration states used by the closed theorems -/

def demoFields : RecordFields :=
  { idRecord := 7, titleRecord := "Album", price := 10, stock := 5,
    inCart := false, amount := 0, groupName := "G" }

def demoState : ViewState :=
  { heap := [(0, demoFields)], nextAddr := 1, recordsRef := 0, recordsList := [0],
    filteredRef := 1, filteredList := [0], nextArrRef := 2 }

def demoFieldsInCart : RecordFields :=
  { idRecord := 7, titleRecord := "Album", price := 10, stock := 5,
    inCart := true, amount := 1, groupName := "G" }

def demoStateInCart : ViewState :=
  { heap := [(0, demoFieldsInCart)], nextAddr := 1, recordsRef := 0,
    recordsList := [0], filteredRef := 1, filteredList := [0], nextArrRef := 2 }

/-! ## Claim C1 -/

/-- C1, counterexample: with an authenticated identity, the state right after
the synchronous part of addToCart — i.e. after the remote add has been issued
but before it resolves — still has `inCart = false` and `amount = 0` on the
record, contradicting the claim that addToCart sets `inCart = true` and the
incremented amount immediately, before the remote add call resolves.  (Both
mutation sites of addToCart live inside the subscribe callbacks.) -/
theorem addToCart_no_update_before_resolution :
    (addToCartIssue (some "user@mail.com") 0 demoState).2 = true ∧
    (addToCartIssue (some "user@mail.com") 0 demoState).1 = demoState ∧
    (heapGet (addToCartIssue (some "user@mail.com") 0 demoState).1.heap 0).map
      (fun f => f.inCart) = some false ∧
    (heapGet (addToCartIssue (some "user@mail.com") 0 demoState).1.heap 0).map
      (fun f => f.amount) = some 0 := by
  decide

/-- C1 (amended): with an authenticated identity, addToCart issues the remote
call without touching any local state; once the remote call resolves, the
success callback sets `inCart = true`, increments `amount` by exactly 1 and
republishes the filtered list as a fresh array over the base list, while the
error callback resets the record to `inCart = false, amount = 0` (regardless
of the prior amount) and republishes likewise; with no identity nothing
happens and no call is issued.  The update is applied at remote confirmation,
not optimistically before it. -/
theorem addToCart_spec (em : String) (r : Nat) (s : ViewState) (f : RecordFields)
    (hem : em.isEmpty = false) (hf : heapGet s.heap r = some f)
    (hwfA : s.filteredRef < s.nextArrRef) :
    addToCartIssue (some em) r s = (s, true) ∧
    (∀ s₂ : ViewState, addToCartIssue none r s₂ = (s₂, false)) ∧
    heapGet (addToCartOnSuccess r s).heap r
      = some { f with inCart := true, amount := f.amount + 1 } ∧
    (∀ b, b ≠ r → heapGet (addToCartOnSuccess r s).heap b = heapGet s.heap b) ∧
    (addToCartOnSuccess r s).recordsRef = s.recordsRef ∧
    (addToCartOnSuccess r s).recordsList = s.recordsList ∧
    (addToCartOnSuccess r s).filteredList = s.recordsList ∧
    (addToCartOnSuccess r s).filteredRef ≠ s.filteredRef ∧
    heapGet (addToCartOnError r s).heap r
      = some { f with inCart := false, amount := 0 } ∧
    (∀ b, b ≠ r → heapGet (addToCartOnError r s).heap b = heapGet s.heap b) ∧
    (addToCartOnError r s).filteredList = s.recordsList ∧
    (addToCartOnError r s).filteredRef ≠ s.filteredRef := by
  have harr := setRecordFields_arrays r
    (fun f => { f with inCart := true, amount := f.amount + 1 }) s
  have harr2 := setRecordFields_arrays r
    (fun f => { f with inCart := false, amount := 0 }) s
  refine ⟨?_, ?_, ?_, ?_, ?_, ?_, ?_, ?_, ?_, ?_, ?_, ?_⟩
  · simp [addToCartIssue, jsTruthyOptStr, hem]
  · intro s₂; rfl
  · simp only [addToCartOnSuccess, republishFiltered]
    exact setRecordFields_heap_self r _ s f hf
  · intro b hb
    simp only [addToCartOnSuccess, republishFiltered]
    exact setRecordFields_heap_other r b _ s hb
  · simp only [addToCartOnSuccess, republishFiltered]
    exact harr.1
  · simp only [addToCartOnSuccess, republishFiltered]
    exact harr.2.1
  · simp only [addToCartOnSuccess, republishFiltered]
    exact harr.2.1
  · simp only [addToCartOnSuccess, republishFiltered]
    rw [harr.2.2.2.2]
    omega
  · simp only [addToCartOnError, republishFiltered]
    exact setRecordFields_heap_self r _ s f hf
  · intro b hb
    simp only [addToCartOnError, republishFiltered]
    exact setRecordFields_heap_other r b _ s hb
  · simp only [addToCartOnError, republishFiltered]
    exact harr2.2.1
  · simp only [addToCartOnError, republishFiltered]
    rw [harr2.2.2.2.2]
    omega

/-- C1, witness: the amended theorem applied at the demonstration state. -/
theorem addToCart_spec_witness :
    ("u@x".isEmpty = false) ∧ heapGet demoState.heap 0 = some demoFields ∧
    demoState.filteredRef < demoState.nextArrRef ∧
    heapGet (addToCartOnSuccess 0 demoState).heap 0
      = some { demoFields with inCart := true, amount := demoFields.amount + 1 } :=
  ⟨rfl, by decide, by decide,
    (addToCart_spec "u@x" 0 demoState demoFields rfl (by decide) (by decide)).2.2.1⟩

/-! ## Claim C2 -/

/-- C2, counterexample: on a record with `amount = 1, inCart = true` and an
authenticated identity, the synchronous part of removeFromCart leaves the
record unchanged (it does NOT immediately set `amount = 0, inCart = false`),
and when the remote remove then fails, the error callback increments the
UNCHANGED amount, leaving `amount = 2, inCart = true` — not the claimed
revert to exactly `amount = 1`. -/
theorem removeFromCart_failure_not_revert :
    (removeFromCartIssue (some "user@mail.com") 0 demoStateInCart).2 = true ∧
    (removeFromCartIssue (some "user@mail.com") 0 demoStateInCart).1 = demoStateInCart ∧
    (heapGet (removeFromCartIssue (some "user@mail.com") 0 demoStateInCart).1.heap 0).map
      (fun f => f.amount) = some 1 ∧
    (heapGet (removeFromCartOnError 0 demoStateInCart).heap 0).map
      (fun f => f.amount) = some 2 ∧
    (heapGet (removeFromCartOnError 0 demoStateInCart).heap 0).map
      (fun f => f.inCart) = some true := by
  decide

/-- C2 (amended): with an authenticated identity and a record marked in-cart,
removeFromCart issues the remote call without touching local state.  When the
call resolves: the success callback floors the decrement at zero and sets
`inCart = amount > 0` (so a record with `amount = 1` ends at
`amount = 0, inCart = false` — at remote confirmation, not before); the error
callback increments the still-unchanged amount and forces `inCart = true`
(so a record that had `amount = 1` ends at `amount = 2`, not back at 1).
With no identity, or with `inCart = false`, nothing happens and no call is
issued. -/
theorem removeFromCart_spec (em : String) (r : Nat) (s : ViewState)
    (f : RecordFields) (hem : em.isEmpty = false)
    (hf : heapGet s.heap r = some f) (hin : f.inCart = true)
    (hwfA : s.filteredRef < s.nextArrRef) :
    removeFromCartIssue (some em) r s = (s, true) ∧
    (∀ s₂ : ViewState, removeFromCartIssue none r s₂ = (s₂, false)) ∧
    (∀ (s₂ : ViewState) (g : RecordFields), heapGet s₂.heap r = some g →
      g.inCart = false → removeFromCartIssue (some em) r s₂ = (s₂, false)) ∧
    heapGet (removeFromCartOnSuccess r s).heap r
      = some { f with amount := max 0 (f.amount - 1), inCart := decide (0 < max 0 (f.amount - 1)) } ∧
    (∀ b, b ≠ r → heapGet (removeFromCartOnSuccess r s).heap b = heapGet s.heap b) ∧
    (removeFromCartOnSuccess r s).filteredList = s.recordsList ∧
    (removeFromCartOnSuccess r s).filteredRef ≠ s.filteredRef ∧
    heapGet (removeFromCartOnError r s).heap r
      = some { f with amount := f.amount + 1, inCart := true } ∧
    (∀ b, b ≠ r → heapGet (removeFromCartOnError r s).heap b = heapGet s.heap b) ∧
    (removeFromCartOnError r s).filteredList = s.recordsList ∧
    (removeFromCartOnError r s).filteredRef ≠ s.filteredRef := by
  have harr := setRecordFields_arrays r
    (fun f => { f with amount := max 0 (f.amount - 1), inCart := decide (0 < max 0 (f.amount - 1)) }) s
  have harr2 := setRecordFields_arrays r
    (fun f => { f with amount := f.amount + 1, inCart := true }) s
  refine ⟨?_, ?_, ?_, ?_, ?_, ?_, ?_, ?_, ?_, ?_, ?_⟩
  · simp [removeFromCartIssue, jsTruthyOptStr, hem, hf, hin]
  · intro s₂; simp [removeFromCartIssue, jsTruthyOptStr]
  · intro s₂ g hg hgin
    simp [removeFromCartIssue, jsTruthyOptStr, hem, hg, hgin]
  · simp only [removeFromCartOnSuccess, republishFiltered]
    exact setRecordFields_heap_self r _ s f hf
  · intro b hb
    simp only [removeFromCartOnSuccess, republishFiltered]
    exact setRecordFields_heap_other r b _ s hb
  · simp only [removeFromCartOnSuccess, republishFiltered]
    exact harr.2.1
  · simp only [removeFromCartOnSuccess, republishFiltered]
    rw [harr.2.2.2.2]
    omega
  · simp only [removeFromCartOnError, republishFiltered]
    exact setRecordFields_heap_self r _ s f hf
  · intro b hb
    simp only [removeFromCartOnError, republishFiltered]
    exact setRecordFields_heap_other r b _ s hb
  · simp only [removeFromCartOnError, republishFiltered]
    exact harr2.2.1
  · simp only [removeFromCartOnError, republishFiltered]
    rw [harr2.2.2.2.2]
    omega

/-- C2, witness: the amended theorem applied at the in-cart demonstration
state, where the success callback yields `amount = 0, inCart = false`. -/
theorem removeFromCart_spec_witness :
    ("u@x".isEmpty = false) ∧ heapGet demoStateInCart.heap 0 = some demoFieldsInCart ∧
    demoFieldsInCart.inCart = true ∧
    demoStateInCart.filteredRef < demoStateInCart.nextArrRef ∧
    heapGet (removeFromCartOnSuccess 0 demoStateInCart).heap 0
      = some { demoFieldsInCart with amount := max 0 (demoFieldsInCart.amount - 1), inCart := decide (0 < max 0 (demoFieldsInCart.amount - 1)) } :=
  ⟨rfl, by decide, by decide, by decide,
    (removeFromCart_spec "u@x" 0 demoStateInCart demoFieldsInCart rfl (by decide)
      (by decide) (by decide)).2.2.2.1⟩

/-! ## Claim C5 -/

theorem cartStep_other (items : List CartItem) (h : RecHeap) (a b : Nat)
    (hne : b ≠ a) : heapGet (cartStep items h a) b = heapGet h b := by
  unfold cartStep
  cases hr : heapGet h a with
  | none => rfl
  | some f => exact heapGet_set_other h a b (cartNewFields items f) hne

theorem cartStep_self (items : List CartItem) (h : RecHeap) (a : Nat)
    (f : RecordFields) (hf : heapGet h a = some f) :
    heapGet (cartStep items h a) a = some (cartNewFields items f) := by
  unfold cartStep
  rw [hf]
  exact heapGet_set_self h a (cartNewFields items f) f hf

theorem cartFold_spec (items : List CartItem) :
    ∀ (l : List Nat), l.Nodup → ∀ (h : RecHeap),
      (∀ a ∈ l, ∀ f, heapGet h a = some f →
        heapGet (l.foldl (cartStep items) h) a = some (cartNewFields items f)) ∧
      (∀ a, a ∉ l → heapGet (l.foldl (cartStep items) h) a = heapGet h a) := by
  intro l
  induction l with
  | nil => intro _ h; exact ⟨by intro a ha; simp at ha, by intro a _; rfl⟩
  | cons c rest ih =>
    intro hnd h
    have hc : c ∉ rest := (List.nodup_cons.mp hnd).1
    have hnd' : rest.Nodup := (List.nodup_cons.mp hnd).2
    have ihh := ih hnd' (cartStep items h c)
    constructor
    · intro a ha f hf
      rcases List.mem_cons.mp ha with hac | har
      · subst hac
        have h1 : heapGet (cartStep items h a) a = some (cartNewFields items f) :=
          cartStep_self items h a f hf
        have h2 := ihh.2 a hc
        simpa [List.foldl_cons, h1] using h2
      · have hne : a ≠ c := fun hEq => hc (hEq ▸ har)
        have h1 : heapGet (cartStep items h c) a = some f := by
          rw [cartStep_other items h c a hne]; exact hf
        have h2 := ihh.1 a har f h1
        simpa [List.foldl_cons] using h2
    · intro a ha
      have hne : a ≠ c := fun hEq => ha (hEq ▸ List.mem_cons_self c rest)
      have har : a ∉ rest := fun hmem => ha (List.mem_cons_of_mem c hmem)
      have h2 := ihh.2 a har
      have h1 : heapGet (cartStep items h c) a = heapGet h a :=
        cartStep_other items h c a hne
      simp only [List.foldl_cons]
      rw [h2, h1]

/-- C5, counterexample: applying a cart snapshot does NOT install a fresh
reference for the base list — `this.records` keeps the same array reference
and the same element addresses — and the record object itself is mutated in
place (the same address dereferences to different field values afterwards),
contradicting the claim that every such mutation installs a new sequence and
fresh references for both lists. -/
theorem applyCartSnapshot_mutates_in_place :
    (applyCartSnapshot [⟨7, 2⟩] demoState).recordsRef = demoState.recordsRef ∧
    (applyCartSnapshot [⟨7, 2⟩] demoState).recordsList = demoState.recordsList ∧
    heapGet (applyCartSnapshot [⟨7, 2⟩] demoState).heap 0 ≠ heapGet demoState.heap 0 ∧
    (heapGet (applyCartSnapshot [⟨7, 2⟩] demoState).heap 0).map (fun f => f.amount)
      = some 2 := by
  decide

/-- C5 (amended): applying a cart snapshot sets, for every base-list record,
`inCart`/`amount` in place from the matching cart line (`inCart = true` and
the line amount if present, else `inCart = false, amount = 0`): the base
array keeps its reference and element addresses and each record object is
mutated rather than copied; only the filtered list receives a fresh array
reference (a copy of the base list).  Records outside the base list are
untouched. -/
theorem applyCartSnapshot_spec (items : List CartItem) (s : ViewState)
    (hnd : s.recordsList.Nodup) (hwfA : s.filteredRef < s.nextArrRef) :
    (applyCartSnapshot items s).recordsRef = s.recordsRef ∧
    (applyCartSnapshot items s).recordsList = s.recordsList ∧
    (applyCartSnapshot items s).filteredList = s.recordsList ∧
    (applyCartSnapshot items s).filteredRef ≠ s.filteredRef ∧
    (∀ a ∈ s.recordsList, ∀ f, heapGet s.heap a = some f →
      heapGet (applyCartSnapshot items s).heap a = some (cartNewFields items f)) ∧
    (∀ a, a ∉ s.recordsList →
      heapGet (applyCartSnapshot items s).heap a = heapGet s.heap a) := by
  have hf := cartFold_spec items s.recordsList hnd s.heap
  refine ⟨rfl, rfl, rfl, ?_, hf.1, hf.2⟩
  show s.nextArrRef ≠ s.filteredRef
  omega

/-- C5, witness: the amended theorem applied at the demonstration state with
a one-line snapshot matching the record. -/
theorem applyCartSnapshot_spec_witness :
    demoState.recordsList.Nodup ∧ demoState.filteredRef < demoState.nextArrRef ∧
    (applyCartSnapshot [⟨7, 2⟩] demoState).recordsRef = demoState.recordsRef :=
  ⟨by decide, by decide,
    (applyCartSnapshot_spec [⟨7, 2⟩] demoState (by decide) (by decide)).1⟩

/-! ## Claim C7 (and the stock part of C3): pointwise behaviour of
applyStockEvent -/

/-- Pointwise specification relating one pre-event list element (an address
into the pre-event heap) with the corresponding post-event element: a record
whose idRecord matches the event is replaced by a FRESH address (at or above
the pre-event allocation counter, hence reference-distinct from every
pre-event object) holding the shallow copy with the new stock; a
non-matching record keeps its address (reference-identical) and its fields.
A dangling address (not allocated in the pre-event heap; impossible for a
real object reference) is unconstrained. -/
def stockPointwiseB (hOld hNew : RecHeap) (n0 : Nat) (rid ns : Int)
    (p : Nat × Nat) : Bool :=
  match heapGet hOld p.1 with
  | none => true
  | some f =>
    if f.idRecord = rid then
      decide (heapGet hNew p.2 = some (stockCopy ns f)) && decide (n0 ≤ p.2)
    else
      (p.2 == p.1) && decide (heapGet hNew p.2 = some f)

theorem stockPointwiseB_extendOld (hOld hOld2 hNew : RecHeap) (n0 n1 : Nat)
    (rid ns : Int) (p : Nat × Nat)
    (hext : ∀ a f, heapGet hOld a = some f → heapGet hOld2 a = some f)
    (hn : n0 ≤ n1)
    (hpw : stockPointwiseB hOld2 hNew n1 rid ns p = true) :
    stockPointwiseB hOld hNew n0 rid ns p = true := by
  cases hfa : heapGet hOld p.1 with
  | none => simp [stockPointwiseB, hfa]
  | some f =>
    have h2 : heapGet hOld2 p.1 = some f := hext p.1 f hfa
    simp only [stockPointwiseB, h2] at hpw
    simp only [stockPointwiseB, hfa]
    by_cases hid : f.idRecord = rid
    · simp only [if_pos hid] at hpw ⊢
      simp only [Bool.and_eq_true, decide_eq_true_eq] at hpw ⊢
      exact ⟨hpw.1, le_trans hn hpw.2⟩
    · simp only [if_neg hid] at hpw ⊢
      exact hpw

theorem stockPointwiseB_extendNew (hOld hNew hNew2 : RecHeap) (n0 : Nat)
    (rid ns : Int) (p : Nat × Nat)
    (hext : ∀ a f, heapGet hNew a = some f → heapGet hNew2 a = some f)
    (hpw : stockPointwiseB hOld hNew n0 rid ns p = true) :
    stockPointwiseB hOld hNew2 n0 rid ns p = true := by
  cases hfa : heapGet hOld p.1 with
  | none => simp [stockPointwiseB, hfa]
  | some f =>
    simp only [stockPointwiseB, hfa] at hpw ⊢
    by_cases hid : f.idRecord = rid
    · simp only [if_pos hid] at hpw ⊢
      simp only [Bool.and_eq_true, decide_eq_true_eq] at hpw ⊢
      exact ⟨hext p.2 (stockCopy ns f) hpw.1, hpw.2⟩
    · simp only [if_neg hid] at hpw ⊢
      simp only [Bool.and_eq_true, decide_eq_true_eq] at hpw ⊢
      exact ⟨hpw.1, hext p.2 f hpw.2⟩

theorem stockMapList_cons_match (rid ns : Int) (a : Nat) (rest : List Nat)
    (h : RecHeap) (n : Nat) (f : RecordFields) (hfa : heapGet h a = some f)
    (hid : f.idRecord = rid) :
    stockMapList rid ns (a :: rest) h n =
      consOut (stockMapList rid ns rest ((n, stockCopy ns f) :: h) (n + 1)) n := by
  simp only [stockMapList, hfa, hid, if_true]

theorem stockMapList_cons_keep (rid ns : Int) (a : Nat) (rest : List Nat)
    (h : RecHeap) (n : Nat) (f : RecordFields) (hfa : heapGet h a = some f)
    (hid : ¬f.idRecord = rid) :
    stockMapList rid ns (a :: rest) h n =
      consOut (stockMapList rid ns rest h n) a := by
  simp only [stockMapList, hfa, hid, if_false]

theorem stockMapList_cons_none (rid ns : Int) (a : Nat) (rest : List Nat)
    (h : RecHeap) (n : Nat) (hfa : heapGet h a = none) :
    stockMapList rid ns (a :: rest) h n =
      consOut (stockMapList rid ns rest h n) a := by
  simp only [stockMapList, hfa]

theorem stockMapList_spec (rid ns : Int) :
    ∀ (l : List Nat) (h : RecHeap) (n : Nat), WFHeap h n →
      WFHeap (stockMapList rid ns l h n).1 (stockMapList rid ns l h n).2.1 ∧
      n ≤ (stockMapList rid ns l h n).2.1 ∧
      (∀ a f, heapGet h a = some f →
        heapGet (stockMapList rid ns l h n).1 a = some f) ∧
      (stockMapList rid ns l h n).2.2.length = l.length ∧
      (∀ p ∈ l.zip (stockMapList rid ns l h n).2.2,
        stockPointwiseB h (stockMapList rid ns l h n).1 n rid ns p = true) := by
  intro l
  induction l with
  | nil =>
    intro h n hwf
    refine ⟨hwf, le_refl n, ?_, rfl, ?_⟩
    · intro a f hf; exact hf
    · intro p hp; simp at hp
  | cons a rest ih =>
    intro h n hwf
    cases hfa : heapGet h a with
    | some f =>
      by_cases hid : f.idRecord = rid
      · rw [stockMapList_cons_match rid ns a rest h n f hfa hid]
        have hwf1 : WFHeap ((n, stockCopy ns f) :: h) (n + 1) := by
          intro q hq
          rcases List.mem_cons.mp hq with h1 | h2
          · rw [h1]; exact Nat.lt_succ_self n
          · exact Nat.lt_succ_of_lt (hwf q h2)
        have hext1 : ∀ b g, heapGet h b = some g →
            heapGet ((n, stockCopy ns f) :: h) b = some g := by
          intro b g hg
          rw [heapGet_cons]
          have hbn : b < n := heapGet_some_lt h n b g hwf hg
          rw [if_neg (by omega)]
          exact hg
        obtain ⟨iwf, ile, iext, ilen, ipw⟩ := ih ((n, stockCopy ns f) :: h) (n + 1) hwf1
        refine ⟨iwf, le_trans (Nat.le_succ n) ile, ?_, ?_, ?_⟩
        · intro b g hg
          exact iext b g (hext1 b g hg)
        · simp only [consOut, List.length_cons, ilen]
        · intro p hp
          simp only [consOut, List.zip_cons_cons] at hp
          rcases List.mem_cons.mp hp with hhead | htail
          · subst hhead
            have hlook : heapGet (stockMapList rid ns rest ((n, stockCopy ns f) :: h) (n + 1)).1 n
                = some (stockCopy ns f) := by
              refine iext n (stockCopy ns f) ?_
              rw [heapGet_cons]
              simp
            simp [stockPointwiseB, consOut, hfa, hid, hlook]
          · have h2 := ipw p htail
            simp only [consOut]
            exact stockPointwiseB_extendOld h ((n, stockCopy ns f) :: h) _ n (n + 1)
              rid ns p hext1 (Nat.le_succ n) h2
      · rw [stockMapList_cons_keep rid ns a rest h n f hfa hid]
        obtain ⟨iwf, ile, iext, ilen, ipw⟩ := ih h n hwf
        refine ⟨iwf, ile, ?_, ?_, ?_⟩
        · intro b g hg; exact iext b g hg
        · simp only [consOut, List.length_cons, ilen]
        · intro p hp
          simp only [consOut, List.zip_cons_cons] at hp
          rcases List.mem_cons.mp hp with hhead | htail
          · subst hhead
            have hlook := iext a f hfa
            simp [stockPointwiseB, consOut, hfa, hid, hlook]
          · simpa only [consOut] using ipw p htail
    | none =>
      rw [stockMapList_cons_none rid ns a rest h n hfa]
      obtain ⟨iwf, ile, iext, ilen, ipw⟩ := ih h n hwf
      refine ⟨iwf, ile, ?_, ?_, ?_⟩
      · intro b g hg; exact iext b g hg
      · simp only [consOut, List.length_cons, ilen]
      · intro p hp
        simp only [consOut, List.zip_cons_cons] at hp
        rcases List.mem_cons.mp hp with hhead | htail
        · subst hhead
          simp [stockPointwiseB, hfa]
        · simpa only [consOut] using ipw p htail

theorem applyStockEvent_pointwise (u : StockUpdate) (s : ViewState)
    (hwf : WFHeap s.heap s.nextAddr) :
    (applyStockEvent u s).recordsList.length = s.recordsList.length ∧
    (applyStockEvent u s).filteredList.length = s.filteredList.length ∧
    (∀ p ∈ s.recordsList.zip (applyStockEvent u s).recordsList,
      stockPointwiseB s.heap (applyStockEvent u s).heap s.nextAddr
        u.recordId u.newStock p = true) ∧
    (∀ p ∈ s.filteredList.zip (applyStockEvent u s).filteredList,
      stockPointwiseB s.heap (applyStockEvent u s).heap s.nextAddr
        u.recordId u.newStock p = true) := by
  obtain ⟨wf1, le1, ext1, len1, pw1⟩ :=
    stockMapList_spec u.recordId u.newStock s.recordsList s.heap s.nextAddr hwf
  obtain ⟨wf2, le2, ext2, len2, pw2⟩ :=
    stockMapList_spec u.recordId u.newStock s.filteredList
      (stockMapList u.recordId u.newStock s.recordsList s.heap s.nextAddr).1
      (stockMapList u.recordId u.newStock s.recordsList s.heap s.nextAddr).2.1 wf1
  refine ⟨?_, ?_, ?_, ?_⟩
  · simpa only [applyStockEvent] using len1
  · simpa only [applyStockEvent] using len2
  · intro p hp
    simp only [applyStockEvent] at hp ⊢
    exact stockPointwiseB_extendNew s.heap _ _ s.nextAddr u.recordId u.newStock p
      ext2 (pw1 p hp)
  · intro p hp
    simp only [applyStockEvent] at hp ⊢
    exact stockPointwiseB_extendOld s.heap _ _ s.nextAddr _ u.recordId u.newStock p
      ext1 le1 (pw2 p hp)

/-! ## Claim C7 -/

/-- C7 (confirmed): after applyStockEvent, both lists carry fresh array
references; the lists keep their length, and pointwise (via
`stockPointwiseB`) the record matching the event id is, in both lists, a
freshly allocated shallow copy of its pre-event value carrying exactly the
event stock, while every record with a different id keeps its address
(reference-identical) and its field values. -/
theorem applyStockEvent_spec (u : StockUpdate) (s : ViewState)
    (hwf : WFHeap s.heap s.nextAddr)
    (hr : s.recordsRef < s.nextArrRef) (hfR : s.filteredRef < s.nextArrRef) :
    (applyStockEvent u s).recordsRef ≠ s.recordsRef ∧
    (applyStockEvent u s).filteredRef ≠ s.filteredRef ∧
    (applyStockEvent u s).recordsList.length = s.recordsList.length ∧
    (applyStockEvent u s).filteredList.length = s.filteredList.length ∧
    (∀ p ∈ s.recordsList.zip (applyStockEvent u s).recordsList,
      stockPointwiseB s.heap (applyStockEvent u s).heap s.nextAddr
        u.recordId u.newStock p = true) ∧
    (∀ p ∈ s.filteredList.zip (applyStockEvent u s).filteredList,
      stockPointwiseB s.heap (applyStockEvent u s).heap s.nextAddr
        u.recordId u.newStock p = true) := by
  obtain ⟨len1, len2, pw1, pw2⟩ := applyStockEvent_pointwise u s hwf
  refine ⟨?_, ?_, len1, len2, pw1, pw2⟩
  · simp only [applyStockEvent]
    omega
  · simp only [applyStockEvent]
    omega

def demoFieldsOther : RecordFields :=
  { idRecord := 8, titleRecord := "Single", price := 4, stock := 3,
    inCart := false, amount := 0, groupName := "H" }

def demoStockState : ViewState :=
  { heap := [(0, demoFields), (1, demoFieldsOther)], nextAddr := 2,
    recordsRef := 0, recordsList := [0, 1], filteredRef := 1,
    filteredList := [0, 1], nextArrRef := 2 }

/-- C7, witness: the theorem applied at a two-record state. -/
theorem applyStockEvent_spec_witness :
    WFHeap demoStockState.heap demoStockState.nextAddr ∧
    demoStockState.recordsRef < demoStockState.nextArrRef ∧
    demoStockState.filteredRef < demoStockState.nextArrRef ∧
    (applyStockEvent ⟨7, 3⟩ demoStockState).recordsRef ≠ demoStockState.recordsRef :=
  ⟨by decide, by decide, by decide,
    (applyStockEvent_spec ⟨7, 3⟩ demoStockState (by decide) (by decide) (by decide)).1⟩

/-! ## Claim C3 -/

/-- C3, counterexample: RecordsService.decrementStock publishes
`newStock = -1` — the signed delta, not the post-update absolute level — and
a subscriber applying that event installs -1, a negative number, as the
stock of the matching record (here a record whose stock was 5), refuting
both `newStock is never a signed delta` and `stock stays a non-negative
integer after applying any published event`. -/
theorem decrementStock_installs_negative :
    (decrementStockPublished 7).newStock = -1 ∧
    (applyStockEvent (decrementStockPublished 7) demoStockState).recordsList = [2, 1] ∧
    (heapGet (applyStockEvent (decrementStockPublished 7) demoStockState).heap 2).map
      (fun f => f.stock) = some (-1) ∧
    ¬((0 : Int) ≤ -1) := by
  decide

/-- C3 (amended): the events published by decrementStock and incrementStock
carry the signed delta (-1 resp. 1) in `newStock`, not the post-update
absolute level, and a subscriber applying such an event installs that delta
verbatim as the stock of the matching record (so decrementStock drives the
displayed stock to -1); only the events published by the getRecords tap
carry the absolute per-record stock level. -/
theorem stock_delta_events_spec (idR : Int) (s : ViewState)
    (hwf : WFHeap s.heap s.nextAddr) :
    decrementStockPublished idR = notifyStockUpdate idR (-1) ∧
    (decrementStockPublished idR).newStock = -1 ∧
    (incrementStockPublished idR).newStock = 1 ∧
    (∀ fetch : Except HErr JVal,
      serviceGetRecordsPublished fetch = (serviceGetRecords fetch).map
        (fun r => notifyStockUpdate (jsNumOrZero (getPropD r "idRecord"))
          (jsNumOrZero (getPropD r "stock")))) ∧
    (∀ p ∈ s.recordsList.zip
        (applyStockEvent (decrementStockPublished idR) s).recordsList,
      stockPointwiseB s.heap (applyStockEvent (decrementStockPublished idR) s).heap
        s.nextAddr idR (-1) p = true) := by
  refine ⟨rfl, rfl, rfl, fun fetch => rfl, ?_⟩
  exact (applyStockEvent_pointwise (decrementStockPublished idR) s hwf).2.2.1

/-- C3, witness: the amended theorem applied at the two-record state. -/
theorem stock_delta_events_spec_witness :
    WFHeap demoStockState.heap demoStockState.nextAddr ∧
    (decrementStockPublished 7).newStock = -1 :=
  ⟨by decide, (stock_delta_events_spec 7 demoStockState (by decide)).2.1⟩

/-! ## Claim C4 -/

def initComp : CompState :=
  { visibleError := false, errorMessage := "", records := [],
    filteredRecords := [], groups := [] }

/-- C4, counterexample: when the record fetch fails with a transport error
(status 0), the service catchError converts it into a successful empty
emission, so the load pipeline ends with `visibleError = false` and an empty
message — the error is swallowed with only a console log, contradicting the
claim that the failure surfaces a visible error state.  (The list is indeed
left empty.) -/
theorem recordsLoad_error_not_surfaced :
    (recordsLoad (.error ⟨0, "Http failure", .jnull⟩) (.ok (.jarr []))
      initComp).visibleError = false ∧
    (recordsLoad (.error ⟨0, "Http failure", .jnull⟩) (.ok (.jarr []))
      initComp).records = [] ∧
    (recordsLoad (.error ⟨0, "Http failure", .jnull⟩) (.ok (.jarr []))
      initComp).errorMessage = "" :=
  ⟨rfl, rfl, rfl⟩

/-- C4 (amended): a transport error on the record fetch is swallowed by the
service catchError: the pipeline leaves the record list empty and the
visible-error flag untouched (only a console log happens).  When only the
group fetch of the load pipeline fails, the raw stock-coalesced records are
installed unjoined, controlError assigns the error message, and the pipeline
branch itself leaves the visible-error flag untouched; the visible-error
flag is set for a group failure only by the separate getGroups subscription
that runs alongside load. -/
theorem recordsLoad_error_spec (err err2 : HErr) (gOut : Except HErr JVal)
    (xs : List JVal) (s : CompState) :
    ((recordsLoad (.error err) gOut s).records = [] ∧
     (recordsLoad (.error err) gOut s).visibleError = s.visibleError) ∧
    ((recordsLoad (.ok (.jarr xs)) (.error err2) s).records = xs.map coalesceStock ∧
     (recordsLoad (.ok (.jarr xs)) (.error err2) s).filteredRecords = xs.map coalesceStock ∧
     (recordsLoad (.ok (.jarr xs)) (.error err2) s).visibleError = s.visibleError ∧
     (recordsLoad (.ok (.jarr xs)) (.error err2) s).errorMessage
       = controlErrorMessage err2) ∧
    (∀ (e3 : HErr) (s3 : CompState), componentGetGroups (.error e3) s3
      = .ok { s3 with visibleError := true, errorMessage := controlErrorMessage e3 }) := by
  refine ⟨?_, ⟨rfl, rfl, rfl, rfl⟩, fun e3 s3 => rfl⟩
  cases gOut with
  | ok g => exact ⟨rfl, rfl⟩
  | error e => exact ⟨rfl, rfl⟩

/-! ## Claim C6 -/

def demoEntity : JVal := .jobj [("idRecord", .jnum 1), ("titleRecord", .jstr "A")]

/-- C6, counterexample: the same data-wrapped payload yields the entity
sequence at the component call site but the object property values — a
singleton holding the raw array — at the service call site, because the
service variant has no `data` strategy and falls through to its
object-values strategy.  The two call sites therefore do not try the same
strategies in the same priority order. -/
theorem normalize_data_envelope_divergence :
    componentRecordsNormalize (.jobj [("data", .jarr [demoEntity])]) = [demoEntity] ∧
    serviceRecordsNormalize (.jobj [("data", .jarr [demoEntity])])
      = [.jarr [demoEntity]] ∧
    [JVal.jarr [demoEntity]] ≠ [demoEntity] := by
  refine ⟨rfl, rfl, ?_⟩
  simp [demoEntity]

/-- C6 (amended): all three call sites agree on bare and `$values`-wrapped
payloads, and the two component call sites (records, groups) also accept a
`data` wrapper; but the service call site has no `data` strategy — a
data-wrapped payload falls through to its object-values fallback and yields
the property-value list `[the raw array]` instead of the entity sequence, so
the call sites do not extract identical sequences for all three envelope
shapes. -/
theorem normalize_envelope_spec (xs : List JVal) :
    componentRecordsNormalize (.jarr xs) = xs ∧
    serviceRecordsNormalize (.jarr xs) = xs ∧
    groupsNormalize (.jarr xs) = .ok xs ∧
    componentRecordsNormalize (.jobj [("$values", .jarr xs)]) = xs ∧
    serviceRecordsNormalize (.jobj [("$values", .jarr xs)]) = xs ∧
    groupsNormalize (.jobj [("$values", .jarr xs)]) = .ok xs ∧
    componentRecordsNormalize (.jobj [("data", .jarr xs)]) = xs ∧
    groupsNormalize (.jobj [("data", .jarr xs)]) = .ok xs ∧
    serviceRecordsNormalize (.jobj [("data", .jarr xs)]) = [.jarr xs] :=
  ⟨rfl, rfl, rfl, rfl, rfl, rfl, rfl, rfl, rfl⟩

/-! ## Claim C8 -/

/-- C8, counterexample: a null payload at the groups call site throws (the
`$values` probe reads a property of null with no guard), contradicting the
claim that every malformed payload normalizes to an empty sequence and never
throws. -/
theorem groupsNormalize_null_throws :
    groupsNormalize .jnull = .error () ∧
    componentGetGroups (.ok .jnull) initComp = .error () :=
  ⟨rfl, rfl⟩

/-- C8 (amended): an empty-object payload normalizes to the empty sequence
at all three call sites without raising any error state (the groups
subscriber merely warns and installs the empty list), and a null payload
also degrades to empty at both record call sites; but at the groups call
site a null payload throws a TypeError from the unguarded property probe
instead of degrading to empty. -/
theorem malformed_payload_spec :
    componentRecordsNormalize .jnull = [] ∧
    componentRecordsNormalize (.jobj []) = [] ∧
    serviceRecordsNormalize .jnull = [] ∧
    serviceRecordsNormalize (.jobj []) = [] ∧
    groupsNormalize (.jobj []) = .ok [] ∧
    (∀ s : CompState, componentGetGroups (.ok (.jobj [])) s
      = .ok { s with groups := [] }) ∧
    groupsNormalize .jnull = .error () :=
  ⟨rfl, rfl, rfl, rfl, rfl, fun _s => rfl, rfl⟩

/-! ## Claim C9 -/

def demoOrder : IOrder :=
  { idOrder := 1, orderDate := "2025-01-02", paymentMethod := "card",
    total := 30, userEmail := "u@x" }

def demoOrdersState : OrdersState :=
  { orders := [demoOrder], filteredOrders := [demoOrder], loading := false }

/-- C9, counterexample: on the transition to no identity, the emailUser$
handler does nothing — no fetch is issued and the previously loaded order
list is retained, not emptied — contradicting the claim that the coordinator
reloads on every identity change including the transition to no identity,
with an empty held list when no identity is present. -/
theorem orders_logout_keeps_list :
    ordersOnEmailChange none (.ok []) demoOrdersState = (demoOrdersState, false) ∧
    demoOrdersState.orders = [demoOrder] ∧
    demoOrdersState.orders ≠ [] := by
  decide

/-- C9 (amended): on a change to a truthy identity the handler reloads the
order list for that identity (success installs the fetched list, failure
empties it); on a change to a falsy identity (null or empty string) no fetch
is issued and the held order list is left exactly as it was — it is empty
only if nothing had been loaded before. -/
theorem ordersOnEmailChange_spec (email : String) (hem : email.isEmpty = false)
    (outcome : Except HErr (List IOrder)) (s : OrdersState) :
    ordersOnEmailChange (some email) outcome s = (loadOrders outcome email s, true) ∧
    (∀ orders : List IOrder, loadOrders (.ok orders) email s
      = { s with orders := orders, filteredOrders := orders, loading := false }) ∧
    (∀ e : HErr, loadOrders (.error e) email s
      = { s with orders := [], filteredOrders := [], loading := false }) ∧
    (∀ (s₂ : OrdersState) (o₂ : Except HErr (List IOrder)),
      ordersOnEmailChange none o₂ s₂ = (s₂, false)) ∧
    (∀ (s₂ : OrdersState) (o₂ : Except HErr (List IOrder)),
      ordersOnEmailChange (some "") o₂ s₂ = (s₂, false)) := by
  refine ⟨?_, fun orders => rfl, fun e => rfl, fun s₂ o₂ => rfl, fun s₂ o₂ => rfl⟩
  simp [ordersOnEmailChange, hem]

/-- C9, witness: the amended theorem applied at a loaded state with a truthy
email. -/
theorem ordersOnEmailChange_spec_witness :
    ("u@x".isEmpty = false) ∧
    ordersOnEmailChange (some "u@x") (.ok [demoOrder]) demoOrdersState
      = (loadOrders (.ok [demoOrder]) "u@x" demoOrdersState, true) :=
  ⟨rfl, (ordersOnEmailChange_spec "u@x" rfl (.ok [demoOrder]) demoOrdersState).1⟩

/-! ## Claim C10 -/

/-- C10 (confirmed): for a draft whose groupId is nullish, addRecord and
updateRecord throw the synchronous `Group is required` error before issuing
any network request, even when the local validation of save (title, price,
stock truthy) passes; the throw happens during the service call, before
subscribe attaches the error callback, so save ends in the synchronous-throw
outcome with the visible-error flag untouched. -/
theorem save_group_required_spec (r : DraftRecord) (ve : Bool)
    (hgid : r.groupId = none) (ht : r.titleRecord.isEmpty = false)
    (hp : (r.price == 0) = false) (hs : (r.stock == 0) = false) :
    addRecord r = .error "Group is required" ∧
    updateRecord r = .error "Group is required" ∧
    save r ve = (.syncThrow "Group is required", ve) := by
  have h1 : addRecord r = .error "Group is required" := by
    simp [addRecord, jsTruthyOptInt, hgid]
  have h2 : updateRecord r = .error "Group is required" := by
    simp [updateRecord, jsTruthyOptInt, hgid]
  refine ⟨h1, h2, ?_⟩
  simp only [save, ht, hp, hs, Bool.or_self, Bool.or_false, Bool.false_or,
    Bool.false_eq_true, if_false]
  cases hid : (r.idRecord == 0) <;> simp [hid, h1, h2]

def demoDraft : DraftRecord :=
  { idRecord := 0, titleRecord := "Title", price := 12, stock := 3,
    groupId := none, discontinued := false }

/-- C10, witness: the theorem applied at a concrete valid draft without a
group. -/
theorem save_group_required_spec_witness :
    demoDraft.groupId = none ∧ demoDraft.titleRecord.isEmpty = false ∧
    (demoDraft.price == 0) = false ∧ (demoDraft.stock == 0) = false ∧
    save demoDraft false = (.syncThrow "Group is required", false) :=
  ⟨rfl, rfl, rfl, rfl,
    (save_group_required_spec demoDraft false rfl rfl rfl rfl).2.2⟩
